import Mathlib

/-!
Shallow embedding of the vocabulary-trainer repository.

Two API modules are modelled:

* the vocabulary / topics CRUD handlers (file `src/unnamed/part_000`):
  the vocabulary handler stores records carrying `id`, `word`, `meaning`;
  the JSON objects it writes have no `phonetic` / `topic` keys, which is
  modelled by `Option String` fields that the handler always leaves `none`
  (a JS object without the key behaves as `undefined`);
* the quiz handler (file `src/pages/api/quiz.ts`, current revision):
  records carry all five fields (`src/types/index.ts`).

JavaScript primitives are embedded as follows:

* `String.prototype.includes`  -> `jsIncludes` (substring test);
* `String.prototype.toLowerCase` -> `jsLower` (ASCII case folding; the
  inputs reasoned about contain no non-ASCII capitals);
* `String.prototype.trim` -> `jsTrim`;
* `Math.floor(Math.random() * n)` -> a caller-supplied natural taken
  modulo `n`, which ranges over exactly the values `0 .. n-1` the source
  expression can produce;
* `Math.random() < 0.5` -> a caller-supplied `Bool`;
* a JSON store file -> `Option String` (missing file = `none`) together
  with an explicit parse function (`JSON.parse` is library code).
-/

/-- Does the first character list occur as a prefix of the second? -/
def charsPrefix : List Char → List Char → Bool
  | [], _ => true
  | _ :: _, [] => false
  | a :: as, b :: bs => a == b && charsPrefix as bs

/-- Does the first character list occur contiguously inside the second? -/
def charsInfix (sub : List Char) : List Char → Bool
  | [] => sub.isEmpty
  | c :: rest => charsPrefix sub (c :: rest) || charsInfix sub rest

/-- Embedding of `s.includes(sub)` from JavaScript: `sub` occurs as a
contiguous substring of `s`. -/
def jsIncludes (s sub : String) : Bool :=
  charsInfix sub.toList s.toList

/-- Embedding of `s.toLowerCase()`: character-wise lower casing. -/
def jsLower (s : String) : String :=
  String.mk (s.toList.map Char.toLower)

/-- JS whitespace as relevant to `trim` and the regular expression `\s` on
the inputs considered: space, tab, line feed, carriage return. -/
def isJsWs (c : Char) : Bool :=
  c == ' ' || c == '\t' || c == '\n' || c == '\r'

/-- Drop leading and trailing whitespace from a character list. -/
def trimChars (l : List Char) : List Char :=
  ((l.dropWhile isJsWs).reverse.dropWhile isJsWs).reverse

/-- Embedding of `s.trim()` from JavaScript. -/
def jsTrim (s : String) : String :=
  String.mk (trimChars s.toList)

/-- Splitting a character list at every space character, keeping empty
segments, as `split(' ')` does in JavaScript. -/
def splitSpaceAux : List Char → List Char → List (List Char)
  | [], acc => [acc.reverse]
  | c :: rest, acc =>
    if c == ' ' then acc.reverse :: splitSpaceAux rest []
    else splitSpaceAux rest (c :: acc)

/-- Embedding of `s.split(' ')` from JavaScript. -/
def jsSplitSpace (s : String) : List String :=
  (splitSpaceAux s.toList []).map String.mk

/-- Vocabulary record as manipulated by the CRUD handlers in
`src/unnamed/part_000`.  The vocabulary handler there constructs objects
`{ id, word, meaning }`; `phonetic` and `topic` are `Option`s because the
JSON objects the handler writes simply lack those keys. -/
structure VocabEntry where
  id : Int
  word : String
  meaning : String
  phonetic : Option String := none
  topic : Option String := none
deriving DecidableEq, Repr

/-- Embedding of `readVocabulary` (identical in both API files): a missing
file (`readFileSync` throws) or a failing `JSON.parse` is caught and turned
into the empty collection. -/
def readVocabulary {α : Type} (file : Option String)
    (parse : String → Option (List α)) : List α :=
  match file with
  | none => []
  | some contents =>
    match parse contents with
    | none => []
    | some voc => voc

/-- Embedding of `getNextId`: `1` on an empty store, otherwise
`Math.max(...ids) + 1`. -/
def getNextId (vocabulary : List VocabEntry) : Int :=
  match vocabulary.map (·.id) with
  | [] => 1
  | x :: xs => xs.foldl max x + 1

/-- Embedding of the vocabulary `GET` handler (list / search).  The search
term, when present and non-empty (JS truthiness), is matched
case-insensitively against the `word` and `meaning` fields only. -/
def vocabularyGET (vocabulary : List VocabEntry) (search : Option String) :
    Nat × List VocabEntry :=
  match search with
  | some s =>
    if s ≠ "" then
      let searchTerm := jsLower s
      (200, vocabulary.filter (fun v =>
        jsIncludes (jsLower v.word) searchTerm ||
        jsIncludes (jsLower v.meaning) searchTerm))
    else (200, vocabulary)
  | none => (200, vocabulary)

/-- Embedding of the vocabulary `POST` handler.  The request body may carry
`phonetic` and `topic` strings, but the handler destructures only `word`
and `meaning` and ignores the rest, so the two extra parameters are unused.
Result: status, the store after the request, the created record (if any). -/
def vocabularyPOST (vocabulary : List VocabEntry)
    (word meaning _phonetic _topic : String) :
    Nat × List VocabEntry × Option VocabEntry :=
  if word = "" || meaning = "" then (400, vocabulary, none)
  else
    match vocabulary.find? (fun v => jsLower v.word == jsLower word) with
    | some _ => (400, vocabulary, none)
    | none =>
      let newVocabulary : VocabEntry :=
        { id := getNextId vocabulary, word := jsTrim word, meaning := jsTrim meaning }
      (201, vocabulary ++ [newVocabulary], some newVocabulary)

/-- Embedding of the vocabulary `PUT` handler.  `id` is the already-parsed
numeric id (`parseInt`); the JS falsiness test `!id` rejects `0`.  The
stored object is rebuilt from scratch, so it again has no `phonetic` /
`topic` keys. -/
def vocabularyPUT (vocabulary : List VocabEntry)
    (id : Int) (word meaning : String) :
    Nat × List VocabEntry × Option VocabEntry :=
  if id = 0 || word = "" || meaning = "" then (400, vocabulary, none)
  else
    match vocabulary.findIdx? (fun v => v.id == id) with
    | none => (404, vocabulary, none)
    | some index =>
      match vocabulary.find? (fun v =>
          (jsLower v.word == jsLower word) && (v.id != id)) with
      | some _ => (400, vocabulary, none)
      | none =>
        let updated : VocabEntry :=
          { id := id, word := jsTrim word, meaning := jsTrim meaning }
        (200, vocabulary.set index updated, some updated)

/-- Embedding of the vocabulary `DELETE` handler: drop the record with the
given id, `404` when nothing was dropped. -/
def vocabularyDELETE (vocabulary : List VocabEntry) (id : Int) :
    Nat × List VocabEntry :=
  let filtered := vocabulary.filter (fun v => v.id != id)
  if filtered.length = vocabulary.length then (404, vocabulary)
  else (200, filtered)

/-- Embedding of the topics `PUT` handler (bulk rename).  Both names are
trimmed before any comparison; records are matched against the trimmed old
name and rewritten to the trimmed new name. -/
def topicsPUT (vocabulary : List VocabEntry) (oldName newName : String) :
    Nat × List VocabEntry :=
  if oldName = "" || newName = "" then (400, vocabulary)
  else
    let oldTopicName := jsTrim oldName
    let newTopicName := jsTrim newName
    if oldTopicName = newTopicName then (400, vocabulary)
    else if (vocabulary.filter (fun v => v.topic == some oldTopicName)).length = 0 then
      (404, vocabulary)
    else if (vocabulary.find? (fun v => v.topic == some newTopicName)).isSome then
      (400, vocabulary)
    else
      (200, vocabulary.map (fun v =>
        if v.topic == some oldTopicName then { v with topic := some newTopicName } else v))

/-- Embedding of the topics `DELETE` handler: remove every record whose
topic equals the trimmed name. -/
def topicsDELETE (vocabulary : List VocabEntry) (name : String) :
    Nat × List VocabEntry :=
  if name = "" || jsTrim name = "" then (400, vocabulary)
  else
    let topicName := jsTrim name
    if (vocabulary.filter (fun v => v.topic == some topicName)).length = 0 then
      (404, vocabulary)
    else
      (200, vocabulary.filter (fun v => v.topic != some topicName))

/-- The store invariant of claim C5: no two records have case-insensitively
equal `word` values. -/
def wordUnique (vocabulary : List VocabEntry) : Prop :=
  (vocabulary.map (fun v => jsLower v.word)).Nodup

instance (vocabulary : List VocabEntry) : Decidable (wordUnique vocabulary) := by
  unfold wordUnique; infer_instance

/-- Pairwise-distinct ids, the well-formedness condition the data model
declares (`id: integer (unique, ...)`). -/
def idsNodup (vocabulary : List VocabEntry) : Prop :=
  (vocabulary.map (·.id)).Nodup

instance (vocabulary : List VocabEntry) : Decidable (idsNodup vocabulary) := by
  unfold idsNodup; infer_instance

/-- The search predicate exactly as claim C8 words it (substring of word,
meaning, phonetic or topic, case-insensitively); used only to compare the
spec text with the handler. -/
def searchSpecMatches (s : String) (v : VocabEntry) : Bool :=
  jsIncludes (jsLower v.word) (jsLower s) ||
  jsIncludes (jsLower v.meaning) (jsLower s) ||
  jsIncludes (jsLower (v.phonetic.getD "")) (jsLower s) ||
  jsIncludes (jsLower (v.topic.getD "")) (jsLower s)

/-- Vocabulary record for the quiz module, matching the current
`src/types/index.ts` declaration: all five fields are present. -/
structure Vocabulary where
  id : Int
  word : String
  meaning : String
  phonetic : String
  topic : String
deriving DecidableEq, Repr

/-- Default record used to make positional list access total; every access
in the development is guarded by an in-bounds proof. -/
def vocDefault : Vocabulary := ⟨0, "", "", "", ""⟩

/-- Quiz question object, matching `src/types/index.ts`: `options` is
present only for multiple-choice questions. -/
structure QuizQuestion where
  id : Int
  question : String
  correctAnswer : String
  options : Option (List String)
  type : String
  word : String
  inputType : String
deriving DecidableEq, Repr

/-- The random draws a single quiz `GET` request consumes: the scaled
`Math.random()` for picking the record (used modulo the filtered length),
the `Math.random() < 0.5` coin for mixed modes, and one stream of draws for
each of the two `shuffleArray` calls (draw `i` is used modulo `i + 1`,
exactly the range `Math.floor(Math.random() * (i + 1))` produces). -/
structure QuizRand where
  pick : Nat
  coin : Bool
  shufPool : Nat → Nat
  shufOpts : Nat → Nat

/-- One step of `shuffleArray`: exchange positions `i` and `j`, reading
both old values first, as the destructuring assignment in the source does.
Out-of-range indices leave the list unchanged (they never occur). -/
def listSwap {α : Type} (l : List α) (i j : Nat) : List α :=
  if h : i < l.length ∧ j < l.length then
    (l.set i (l.get ⟨j, h.2⟩)).set j (l.get ⟨i, h.1⟩)
  else l

/-- The Fisher-Yates loop of `shuffleArray`, counting `i` down to `1`;
the swap partner at step `i` is `rand i % (i + 1)`, the embedding of
`Math.floor(Math.random() * (i + 1))`. -/
def shuffleAux {α : Type} (rand : Nat → Nat) : List α → Nat → List α
  | l, 0 => l
  | l, i + 1 => shuffleAux rand (listSwap l (i + 1) (rand (i + 1) % (i + 2))) i

/-- Embedding of `shuffleArray` from `src/pages/api/quiz.ts`. -/
def shuffleArray {α : Type} (rand : Nat → Nat) (l : List α) : List α :=
  shuffleAux rand l (l.length - 1)

/-- The six recognised quiz modes (`validModes` in the handler). -/
def validModes : List String :=
  ["phonetic-to-meaning", "meaning-to-phonetic", "mixed",
   "phonetic-to-meaning-text", "meaning-to-phonetic-text", "mixed-text"]

/-- The topic filtering both the handler and `generateQuestion` perform: a
topic query that is absent, empty (JS falsy) or the literal `"all"` leaves
the collection unfiltered, any other value keeps only matching records. -/
def topicFiltered (vocabulary : List Vocabulary) (topicQ : Option String) :
    List Vocabulary :=
  match topicQ with
  | some t =>
    if t ≠ "" ∧ t ≠ "all" then vocabulary.filter (fun v => v.topic == t)
    else vocabulary
  | none => vocabulary

/-- The `questionType` computation of `generateQuestion`: mixed modes draw
a coin, every other mode names its own question type. -/
def questionTypeOf (mode : String) (coin : Bool) : String :=
  if mode = "mixed" then
    if coin then "phonetic-to-meaning" else "meaning-to-phonetic"
  else if mode = "mixed-text" then
    if coin then "phonetic-to-meaning-text" else "meaning-to-phonetic-text"
  else mode

/-- The `inputType` computation of `generateQuestion`: text input exactly
for `"mixed-text"` and modes containing `"-text"`. -/
def inputTypeOf (mode : String) : String :=
  if mode = "mixed" then "multiple-choice"
  else if mode = "mixed-text" then "text-input"
  else if jsIncludes mode "-text" then "text-input"
  else "multiple-choice"

/-- The `question` / `correctAnswer` pair `generateQuestion` derives from
the selected record. -/
def questionAnswerOf (correctItem : Vocabulary) (questionType : String) :
    String × String :=
  if questionType = "phonetic-to-meaning" ∨ questionType = "phonetic-to-meaning-text"
  then (correctItem.phonetic, correctItem.meaning)
  else (correctItem.meaning, correctItem.phonetic)

/-- The `optionPool` of `generateQuestion`: all meanings (resp. phonetics)
of the FULL collection, minus values equal to the correct answer. -/
def optionPoolOf (vocabulary : List Vocabulary) (questionType : String)
    (correctAnswer : String) : List String :=
  if questionType = "phonetic-to-meaning"
  then (vocabulary.map (·.meaning)).filter (fun m => m != correctAnswer)
  else (vocabulary.map (·.phonetic)).filter (fun p => p != correctAnswer)

/-- The `options` computation of `generateQuestion`: for multiple choice,
three random distractors from the pool plus the correct answer, shuffled;
for text input, absent. -/
def optionsOf (vocabulary : List Vocabulary) (questionType inputType : String)
    (correctAnswer : String) (r : QuizRand) : Option (List String) :=
  if inputType = "multiple-choice" then
    let incorrectOptions :=
      (shuffleArray r.shufPool (optionPoolOf vocabulary questionType correctAnswer)).take 3
    some (shuffleArray r.shufOpts (correctAnswer :: incorrectOptions))
  else none

/-- Embedding of `generateQuestion` from the current `src/pages/api/quiz.ts`:
pick a random record from the topic-filtered list, derive question type and
input type from the mode, and for multiple-choice modes build the options
from three distractors drawn from the full collection. -/
def generateQuestion (vocabulary : List Vocabulary) (mode : String)
    (topicQ : Option String) (r : QuizRand) : Option QuizQuestion :=
  let filteredVocabulary := topicFiltered vocabulary topicQ
  if filteredVocabulary.length = 0 then none
  else if vocabulary.length < 4 then none
  else
    let correctItem :=
      filteredVocabulary.getD (r.pick % filteredVocabulary.length) vocDefault
    let questionType := questionTypeOf mode r.coin
    let inputType := inputTypeOf mode
    let qa := questionAnswerOf correctItem questionType
    some { id := correctItem.id, question := qa.1, correctAnswer := qa.2,
           options := optionsOf vocabulary questionType inputType qa.2 r,
           type := questionType,
           word := correctItem.word, inputType := inputType }

/-- Embedding of the quiz `GET` handler: guards for an empty store, an
empty topic selection and fewer than four records, then question
generation with unrecognised modes silently replaced by `"mixed"`. -/
def quizHandlerGET (vocabulary : List Vocabulary)
    (modeQ topicQ : Option String) (r : QuizRand) : Nat × Option QuizQuestion :=
  let mode := modeQ.getD "mixed"
  if vocabulary.length = 0 then (400, none)
  else if (topicFiltered vocabulary topicQ).length = 0 then (400, none)
  else if vocabulary.length < 4 then (400, none)
  else
    let quizMode := if validModes.contains mode then mode else "mixed"
    match generateQuestion vocabulary quizMode topicQ r with
    | none => (500, none)
    | some question => (200, some question)

/-- Embedding of `.replace(/\s+/g, ' ')`: every maximal run of whitespace
becomes a single space. -/
def collapseWs : List Char → List Char
  | [] => []
  | [c] => if isJsWs c then [' '] else [c]
  | c :: d :: rest =>
    if isJsWs c then
      if isJsWs d then collapseWs (d :: rest)
      else ' ' :: collapseWs (d :: rest)
    else c :: collapseWs (d :: rest)

/-- The punctuation class `[.,!?;:()]` removed by the normalizer. -/
def isQuizPunct (c : Char) : Bool :=
  c == '.' || c == ',' || c == '!' || c == '?' || c == ';' || c == ':' ||
  c == '(' || c == ')'

/-- Composite of the NFD decomposition, the removal of combining marks in
U+0300-U+036F, and the NFC recomposition performed by the normalizer, on
one character: a precomposed Latin letter whose decomposition is a base
letter plus such combining marks collapses to the base letter (the full
lowercase Vietnamese alphabet is covered; the letter đ has no such
decomposition and is kept, as in the source pipeline). -/
def stripMark (c : Char) : Char :=
  match c with
  | 'à' | 'á' | 'ả' | 'ã' | 'ạ' | 'ă' | 'ằ' | 'ắ' | 'ẳ' | 'ẵ' | 'ặ'
  | 'â' | 'ầ' | 'ấ' | 'ẩ' | 'ẫ' | 'ậ' => 'a'
  | 'è' | 'é' | 'ẻ' | 'ẽ' | 'ẹ' | 'ê' | 'ề' | 'ế' | 'ể' | 'ễ' | 'ệ' => 'e'
  | 'ì' | 'í' | 'ỉ' | 'ĩ' | 'ị' => 'i'
  | 'ò' | 'ó' | 'ỏ' | 'õ' | 'ọ' | 'ô' | 'ồ' | 'ố' | 'ổ' | 'ỗ' | 'ộ'
  | 'ơ' | 'ờ' | 'ớ' | 'ở' | 'ỡ' | 'ợ' => 'o'
  | 'ù' | 'ú' | 'ủ' | 'ũ' | 'ụ' | 'ư' | 'ừ' | 'ứ' | 'ử' | 'ữ' | 'ự' => 'u'
  | 'ỳ' | 'ý' | 'ỷ' | 'ỹ' | 'ỵ' => 'y'
  | c => c

/-- Embedding of `normalizeVietnamese`: lower-case, trim, collapse
whitespace, strip the punctuation class, remove combining diacritics. -/
def normalizeVietnamese (text : String) : String :=
  String.mk
    (((collapseWs (trimChars (jsLower text).toList)).filter
      (fun c => !isQuizPunct c)).map stripMark)

/-- Embedding of `isAnswerCorrect`: empty answers are wrong; Vietnamese
answers compare by normalized equality, mutual containment, or the
word-subset check; other answers by normalized equality. -/
def isAnswerCorrect (userAnswer correctAnswer : String)
    (isVietnamese : Bool := false) : Bool :=
  if userAnswer = "" || correctAnswer = "" then false
  else if isVietnamese then
    let normalizedUser := normalizeVietnamese userAnswer
    let normalizedCorrect := normalizeVietnamese correctAnswer
    if normalizedUser = normalizedCorrect then true
    else if jsIncludes normalizedUser normalizedCorrect ||
            jsIncludes normalizedCorrect normalizedUser then true
    else
      let userWords := jsSplitSpace normalizedUser
      let correctWords := jsSplitSpace normalizedCorrect
      correctWords.all (fun word =>
        userWords.any (fun userWord =>
          jsIncludes userWord word || jsIncludes word userWord))
  else
    normalizeVietnamese userAnswer == normalizeVietnamese correctAnswer

/-- Default record used to make positional access to CRUD stores total;
every access in the development is guarded by an in-bounds proof. -/
def entryDefault : VocabEntry := ⟨0, "", "", none, none⟩

/-- Deterministic random draws (every draw zero) used in concrete
instances of the quiz theorems. -/
def demoRand : QuizRand := ⟨0, true, fun _ => 0, fun _ => 0⟩

/-- Concrete four-record store: topic "a" holds one record, topic "b" the
other three; all meanings distinct. -/
def demoVoc : List Vocabulary :=
  [⟨1, "w1", "m1", "p1", "a"⟩, ⟨2, "w2", "m2", "p2", "b"⟩,
   ⟨3, "w3", "m3", "p3", "b"⟩, ⟨4, "w4", "m4", "p4", "b"⟩]

/-- Concrete four-record store whose records all share one meaning. -/
def demoVocSameMeaning : List Vocabulary :=
  [⟨1, "w1", "m", "p1", "a"⟩, ⟨2, "w2", "m", "p2", "a"⟩,
   ⟨3, "w3", "m", "p3", "a"⟩, ⟨4, "w4", "m", "p4", "a"⟩]

/-- The question the quiz endpoint yields on `demoVoc` for
`mode=phonetic-to-meaning&topic=a` under `demoRand`. -/
def demoQuestion : QuizQuestion :=
  ⟨1, "p1", "m1", some ["m3", "m4", "m2", "m1"], "phonetic-to-meaning", "w1",
   "multiple-choice"⟩

theorem get_cons_set_perm {α : Type} :
    ∀ (l : List α) (j : Nat) (hj : j < l.length) (a : α),
      List.Perm (l.get ⟨j, hj⟩ :: l.set j a) (a :: l)
  | x :: xs, 0, _, a => by
    simpa using List.Perm.swap a x xs
  | x :: xs, j + 1, hj, a => by
    have ih := get_cons_set_perm xs j (by simpa using Nat.lt_of_succ_lt_succ hj) a
    calc
      List.Perm (xs.get ⟨j, _⟩ :: x :: xs.set j a)
          (x :: xs.get ⟨j, _⟩ :: xs.set j a) := List.Perm.swap x _ _
      List.Perm _ (x :: a :: xs) := List.Perm.cons x ih
      List.Perm _ (a :: x :: xs) := List.Perm.swap a x xs

theorem set_set_perm {α : Type} :
    ∀ (l : List α) (i j : Nat) (hi : i < l.length) (hj : j < l.length),
      List.Perm ((l.set i (l.get ⟨j, hj⟩)).set j (l.get ⟨i, hi⟩)) l
  | x :: xs, 0, 0, _, _ => by simp
  | x :: xs, 0, j + 1, hi, hj => by
    have hj' : j < xs.length := by simpa using Nat.lt_of_succ_lt_succ hj
    simpa using get_cons_set_perm xs j hj' x
  | x :: xs, i + 1, 0, hi, hj => by
    have hi' : i < xs.length := by simpa using Nat.lt_of_succ_lt_succ hi
    simpa using get_cons_set_perm xs i hi' x
  | x :: xs, i + 1, j + 1, hi, hj => by
    have hi' : i < xs.length := by simpa using Nat.lt_of_succ_lt_succ hi
    have hj' : j < xs.length := by simpa using Nat.lt_of_succ_lt_succ hj
    simpa using List.Perm.cons x (set_set_perm xs i j hi' hj')

theorem listSwap_perm {α : Type} (l : List α) (i j : Nat) :
    List.Perm (listSwap l i j) l := by
  unfold listSwap
  split
  case isTrue h => exact set_set_perm l i j h.1 h.2
  case isFalse h => exact List.Perm.refl l

theorem shuffleAux_perm {α : Type} (rand : Nat → Nat) :
    ∀ (n : Nat) (l : List α), List.Perm (shuffleAux rand l n) l
  | 0, l => List.Perm.refl l
  | n + 1, l =>
    List.Perm.trans
      (shuffleAux_perm rand n (listSwap l (n + 1) (rand (n + 1) % (n + 2))))
      (listSwap_perm l (n + 1) (rand (n + 1) % (n + 2)))

theorem shuffleArray_perm {α : Type} (rand : Nat → Nat) (l : List α) :
    List.Perm (shuffleArray rand l) l :=
  shuffleAux_perm rand (l.length - 1) l

theorem mem_shuffleArray {α : Type} {rand : Nat → Nat} {l : List α} {a : α} :
    a ∈ shuffleArray rand l ↔ a ∈ l :=
  (shuffleArray_perm rand l).mem_iff

theorem length_shuffleArray {α : Type} (rand : Nat → Nat) (l : List α) :
    (shuffleArray rand l).length = l.length :=
  (shuffleArray_perm rand l).length_eq

theorem getD_mem {α : Type} {l : List α} {i : Nat} {d : α}
    (h : i < l.length) : l.getD i d ∈ l := by
  rw [List.getD_eq_getElem l d h]
  exact List.getElem_mem h

theorem le_foldl_max (x : Int) (xs : List Int) : x ≤ xs.foldl max x := by
  induction xs generalizing x with
  | nil => exact le_refl x
  | cons y ys ih => exact le_trans (le_max_left x y) (ih (max x y))

theorem mem_le_foldl_max (x : Int) (xs : List Int) :
    ∀ y ∈ xs, y ≤ xs.foldl max x := by
  induction xs generalizing x with
  | nil => intro y hy; cases hy
  | cons z zs ih =>
    intro y hy
    rcases List.mem_cons.mp hy with h | h
    · subst h; exact le_trans (le_max_right x y) (le_foldl_max _ zs)
    · exact ih (max x z) y h

theorem foldl_max_cases (x : Int) (xs : List Int) :
    xs.foldl max x = x ∨ xs.foldl max x ∈ xs := by
  induction xs generalizing x with
  | nil => exact Or.inl rfl
  | cons y ys ih =>
    rcases ih (max x y) with h | h
    · rcases max_cases x y with ⟨he, _⟩ | ⟨he, _⟩
      · exact Or.inl (by rw [List.foldl_cons, h, he])
      · exact Or.inr (by rw [List.foldl_cons, h, he]; exact List.mem_cons_self y ys)
    · exact Or.inr (List.mem_cons_of_mem y h)

theorem findIdx?_some_spec {α : Type} (p : α → Bool) :
    ∀ (l : List α) (i : Nat), l.findIdx? p = some i →
      ∃ h : i < l.length, p (l.get ⟨i, h⟩) = true := by
  intro l
  induction l with
  | nil => intro i h; simp [List.findIdx?] at h
  | cons x xs ih =>
    intro i h
    rw [List.findIdx?_cons] at h
    by_cases hp : p x
    · simp [hp] at h
      subst h
      exact ⟨Nat.succ_pos _, by simpa using hp⟩
    · simp [hp] at h
      rcases h with ⟨j, hj, rfl⟩
      rcases ih j hj with ⟨hlt, hpj⟩
      exact ⟨Nat.succ_lt_succ hlt, by simpa using hpj⟩

theorem nodup_set {α : Type} :
    ∀ (l : List α) (i : Nat) (a : α), l.Nodup →
      (∀ (j : Nat) (hj : j < l.length), j ≠ i → l.get ⟨j, hj⟩ ≠ a) →
      (l.set i a).Nodup := by
  intro l
  induction l with
  | nil => intro i a _ _; simp
  | cons x xs ih =>
    intro i a hnd hne
    rcases List.nodup_cons.mp hnd with ⟨hx, hxs⟩
    cases i with
    | zero =>
      rw [List.set_cons_zero]
      refine List.nodup_cons.mpr ⟨?_, hxs⟩
      intro hmem
      rcases List.mem_iff_get.mp hmem with ⟨⟨j, hj⟩, hget⟩
      exact hne (j + 1) (Nat.succ_lt_succ hj) (Nat.succ_ne_zero j) (by simpa using hget)
    | succ k =>
      rw [List.set_cons_succ]
      refine List.nodup_cons.mpr ⟨?_, ?_⟩
      · intro hmem
        rcases List.mem_iff_get.mp hmem with ⟨⟨j, hj⟩, hget⟩
        have hjlen : j < xs.length := by simpa using hj
        rw [List.get_eq_getElem] at hget
        by_cases hjk : j = k
        · subst hjk
          rw [List.getElem_set_self] at hget
          exact hne 0 (Nat.succ_pos _) (by simp) (by simpa using hget.symm)
        · rw [List.getElem_set_ne (Ne.symm hjk)] at hget
          exact hx (hget ▸ List.getElem_mem (by simpa using hj))
      · refine ih k a hxs ?_
        intro j hj hjk
        exact fun hc =>
          hne (j + 1) (Nat.succ_lt_succ hj) (fun h => hjk (Nat.succ_injective h))
            (by simpa using hc)

theorem map_set_comm {α β : Type} (f : α → β) :
    ∀ (l : List α) (i : Nat) (a : α),
      (l.set i a).map f = (l.map f).set i (f a) := by
  intro l
  induction l with
  | nil => intro i a; simp
  | cons x xs ih =>
    intro i a
    cases i with
    | zero => simp
    | succ k => simp [ih]

theorem filter_ne_length_of_nodup {α : Type} [DecidableEq α]
    {l : List α} {c : α} (hnd : l.Nodup) (hc : c ∈ l) :
    (l.filter (fun x => x != c)).length = l.length - 1 := by
  have hperm : List.Perm l (c :: l.erase c) := List.perm_cons_erase hc
  have hfperm := hperm.filter (fun x => x != c)
  rw [hfperm.length_eq]
  have hcc : (c != c) = false := by simp
  rw [List.filter_cons, hcc]
  have hself : (l.erase c).filter (fun x => x != c) = l.erase c := by
    rw [List.filter_eq_self]
    intro a ha
    have : a ≠ c := by
      intro h; subst h
      exact (List.Nodup.not_mem_erase hnd) ha
    simpa using this
  rw [hself]
  exact List.length_erase_of_mem hc

theorem generateQuestion_isSome (vocabulary : List Vocabulary) (mode : String)
    (topicQ : Option String) (r : QuizRand)
    (hf : ¬ (topicFiltered vocabulary topicQ).length = 0)
    (h4 : ¬ vocabulary.length < 4) :
    ∃ q, generateQuestion vocabulary mode topicQ r = some q := by
  simp only [generateQuestion]
  rw [if_neg hf, if_neg h4]
  exact ⟨_, rfl⟩

/-- C1: the quiz `GET` endpoint answers 400 exactly when the store holds
fewer than 4 records or the topic filter selects no record; in every other
case it answers 200, and it carries a generated question exactly on the
200 answers. -/
theorem quizGET_status_characterization (vocabulary : List Vocabulary)
    (modeQ topicQ : Option String) (r : QuizRand) :
    ((quizHandlerGET vocabulary modeQ topicQ r).1 = 400 ↔
      (vocabulary.length < 4 ∨ (topicFiltered vocabulary topicQ).length = 0)) ∧
    ((quizHandlerGET vocabulary modeQ topicQ r).1 = 200 ↔
      ¬ (vocabulary.length < 4 ∨ (topicFiltered vocabulary topicQ).length = 0)) ∧
    ((quizHandlerGET vocabulary modeQ topicQ r).2.isSome ↔
      (quizHandlerGET vocabulary modeQ topicQ r).1 = 200) := by
  by_cases h0 : vocabulary.length = 0
  · have hf : (topicFiltered vocabulary topicQ).length = 0 := by
      have hnil : vocabulary = [] := List.length_eq_zero.mp h0
      subst hnil
      cases topicQ with
      | none => rfl
      | some t => simp [topicFiltered]
    simp [quizHandlerGET, h0, hf]
  · by_cases hf : (topicFiltered vocabulary topicQ).length = 0
    · simp [quizHandlerGET, h0, hf]
    · by_cases h4 : vocabulary.length < 4
      · simp [quizHandlerGET, h0, hf, h4]
      · obtain ⟨q, hq⟩ := generateQuestion_isSome vocabulary
          (if validModes.contains (modeQ.getD "mixed") then modeQ.getD "mixed" else "mixed")
          topicQ r hf h4
        simp only [quizHandlerGET]
        rw [if_neg h0, if_neg hf, if_neg h4, hq]
        simp [h4, hf]

/-- C10: a mode string outside the six recognised modes is silently
treated as `"mixed"`: provided the store holds at least 4 records and the
topic selection is non-empty, the endpoint answers 200 with a
multiple-choice question. -/
theorem quizGET_unknown_mode_is_mixed (vocabulary : List Vocabulary)
    (badMode : String) (topicQ : Option String) (r : QuizRand)
    (hm : validModes.contains badMode = false)
    (h4 : 4 ≤ vocabulary.length)
    (hf : ¬ (topicFiltered vocabulary topicQ).length = 0) :
    ∃ q, quizHandlerGET vocabulary (some badMode) topicQ r = (200, some q) ∧
      q.inputType = "multiple-choice" ∧
      (q.type = "phonetic-to-meaning" ∨ q.type = "meaning-to-phonetic") ∧
      q.options.isSome = true := by
  have h0 : ¬ vocabulary.length = 0 := by omega
  have h4' : ¬ vocabulary.length < 4 := by omega
  simp only [quizHandlerGET, Option.getD_some]
  rw [if_neg h0, if_neg hf, if_neg h4', hm]
  simp only [Bool.false_eq_true, if_false]
  simp only [generateQuestion]
  rw [if_neg hf, if_neg h4']
  refine ⟨_, rfl, rfl, ?_, rfl⟩
  cases hc : r.coin
  · exact Or.inr rfl
  · exact Or.inl rfl

theorem optionsOf_mem (vocabulary : List Vocabulary) (qt it c : String)
    (r : QuizRand) (opts : List String)
    (h : optionsOf vocabulary qt it c r = some opts) :
    ∀ o ∈ opts, o = c ∨ ∃ rec ∈ vocabulary, o = rec.meaning ∨ o = rec.phonetic := by
  unfold optionsOf at h
  by_cases hit : it = "multiple-choice"
  · rw [if_pos hit, Option.some_inj] at h
    subst h
    intro o ho
    rw [mem_shuffleArray] at ho
    rcases List.mem_cons.mp ho with h1 | h1
    · exact Or.inl h1
    · right
      have h2 : o ∈ shuffleArray r.shufPool (optionPoolOf vocabulary qt c) :=
        List.take_subset 3 _ h1
      rw [mem_shuffleArray] at h2
      unfold optionPoolOf at h2
      by_cases hqt : qt = "phonetic-to-meaning"
      · rw [if_pos hqt] at h2
        rcases List.mem_map.mp (List.mem_filter.mp h2).1 with ⟨rec, hrec, hval⟩
        exact ⟨rec, hrec, Or.inl hval.symm⟩
      · rw [if_neg hqt] at h2
        rcases List.mem_map.mp (List.mem_filter.mp h2).1 with ⟨rec, hrec, hval⟩
        exact ⟨rec, hrec, Or.inr hval.symm⟩
  · rw [if_neg hit] at h
    exact absurd h (by simp)

theorem quizHandlerGET_ok (vocabulary : List Vocabulary)
    (modeQ topicQ : Option String) (r : QuizRand) (q : QuizQuestion)
    (h : quizHandlerGET vocabulary modeQ topicQ r = (200, some q)) :
    ∃ m, generateQuestion vocabulary m topicQ r = some q := by
  simp only [quizHandlerGET] at h
  by_cases h0 : vocabulary.length = 0
  · rw [if_pos h0] at h; exact absurd h (by simp)
  rw [if_neg h0] at h
  by_cases hf : (topicFiltered vocabulary topicQ).length = 0
  · rw [if_pos hf] at h; exact absurd h (by simp)
  rw [if_neg hf] at h
  by_cases h4 : vocabulary.length < 4
  · rw [if_pos h4] at h; exact absurd h (by simp)
  rw [if_neg h4] at h
  rcases hg : generateQuestion vocabulary
      (if validModes.contains (modeQ.getD "mixed") then modeQ.getD "mixed" else "mixed")
      topicQ r with _ | q'
  · rw [hg] at h; exact absurd h (by simp)
  · rw [hg] at h
    simp only [Prod.mk.injEq, Option.some_inj] at h
    exact ⟨_, h.2 ▸ hg⟩

theorem generateQuestion_topic_spec (vocabulary : List Vocabulary)
    (mode t : String) (r : QuizRand) (q : QuizQuestion)
    (ht1 : t ≠ "") (ht2 : t ≠ "all")
    (h : generateQuestion vocabulary mode (some t) r = some q) :
    (∃ rec, rec ∈ vocabulary ∧ rec.topic = t ∧ q.word = rec.word ∧ q.id = rec.id ∧
      ((q.correctAnswer = rec.meaning ∧ q.question = rec.phonetic) ∨
       (q.correctAnswer = rec.phonetic ∧ q.question = rec.meaning))) ∧
    (∀ opts, q.options = some opts → ∀ o ∈ opts,
      ∃ rec2, rec2 ∈ vocabulary ∧ (o = rec2.meaning ∨ o = rec2.phonetic)) := by
  have hfilt : topicFiltered vocabulary (some t) =
      vocabulary.filter (fun v => v.topic == t) := by
    simp [topicFiltered, ht1, ht2]
  simp only [generateQuestion, hfilt] at h
  by_cases hf : (vocabulary.filter (fun v => v.topic == t)).length = 0
  · rw [if_pos hf] at h; exact absurd h (by simp)
  rw [if_neg hf] at h
  by_cases h4 : vocabulary.length < 4
  · rw [if_pos h4] at h; exact absurd h (by simp)
  rw [if_neg h4, Option.some_inj] at h
  subst h
  have hlen : 0 < (vocabulary.filter (fun v => v.topic == t)).length :=
    Nat.pos_of_ne_zero hf
  have hidx : r.pick % (vocabulary.filter (fun v => v.topic == t)).length <
      (vocabulary.filter (fun v => v.topic == t)).length := Nat.mod_lt _ hlen
  have hmem : (vocabulary.filter (fun v => v.topic == t)).getD
      (r.pick % (vocabulary.filter (fun v => v.topic == t)).length) vocDefault ∈
      vocabulary.filter (fun v => v.topic == t) := getD_mem hidx
  have hmemv := (List.mem_filter.mp hmem).1
  have htop : ((vocabulary.filter (fun v => v.topic == t)).getD
      (r.pick % (vocabulary.filter (fun v => v.topic == t)).length) vocDefault).topic = t := by
    have := (List.mem_filter.mp hmem).2
    simpa using this
  constructor
  · refine ⟨_, hmemv, htop, rfl, rfl, ?_⟩
    by_cases hqt : questionTypeOf mode r.coin = "phonetic-to-meaning" ∨
        questionTypeOf mode r.coin = "phonetic-to-meaning-text"
    · left
      constructor <;> simp [questionAnswerOf, if_pos hqt]
    · right
      constructor <;> simp [questionAnswerOf, if_neg hqt]
  · intro opts hopts o ho
    rcases optionsOf_mem vocabulary _ _ _ r opts hopts o ho with h1 | h1
    · refine ⟨_, hmemv, ?_⟩
      rw [h1]
      by_cases hqt : questionTypeOf mode r.coin = "phonetic-to-meaning" ∨
          questionTypeOf mode r.coin = "phonetic-to-meaning-text"
      · left; simp [questionAnswerOf, if_pos hqt]
      · right; simp [questionAnswerOf, if_neg hqt]
    · rcases h1 with ⟨rec2, hrec2, hor⟩
      exact ⟨rec2, hrec2, hor⟩

/-- C2: whenever the quiz endpoint succeeds under a topic filter (topic
present, non-empty and different from "all"), the selected record -- and
hence the question, correct answer, word and id -- comes from the records
of that topic, while every option is the meaning or phonetic of some
record of the FULL collection; the concrete instance shows an option
("m2") whose only source record lies outside the filtered topic. -/
theorem quizGET_topic_filter_selection :
    (∀ (vocabulary : List Vocabulary) (modeQ : Option String) (t : String)
        (r : QuizRand) (q : QuizQuestion),
      t ≠ "" → t ≠ "all" →
      quizHandlerGET vocabulary modeQ (some t) r = (200, some q) →
      (∃ rec, rec ∈ vocabulary ∧ rec.topic = t ∧ q.word = rec.word ∧ q.id = rec.id ∧
        ((q.correctAnswer = rec.meaning ∧ q.question = rec.phonetic) ∨
         (q.correctAnswer = rec.phonetic ∧ q.question = rec.meaning))) ∧
      (∀ opts, q.options = some opts → ∀ o ∈ opts,
        ∃ rec2, rec2 ∈ vocabulary ∧ (o = rec2.meaning ∨ o = rec2.phonetic))) ∧
    (quizHandlerGET demoVoc (some "phonetic-to-meaning") (some "a") demoRand
        = (200, some demoQuestion) ∧
      "m2" ∈ (demoQuestion.options.getD []) ∧
      (∀ v ∈ demoVoc, v.meaning = "m2" ∨ v.phonetic = "m2" → v.topic ≠ "a")) := by
  constructor
  · intro vocabulary modeQ t r q ht1 ht2 hres
    obtain ⟨m, hg⟩ := quizHandlerGET_ok vocabulary modeQ (some t) r q hres
    exact generateQuestion_topic_spec vocabulary m t r q ht1 ht2 hg
  · refine ⟨by decide, by decide, by decide⟩

/-- Witness for C2: the universally quantified part applied to the
concrete store, topic and random draws. -/
theorem quizGET_topic_filter_selection_witness :
    (∃ rec, rec ∈ demoVoc ∧ rec.topic = "a" ∧ demoQuestion.word = rec.word ∧
      demoQuestion.id = rec.id ∧
      ((demoQuestion.correctAnswer = rec.meaning ∧ demoQuestion.question = rec.phonetic) ∨
       (demoQuestion.correctAnswer = rec.phonetic ∧ demoQuestion.question = rec.meaning))) ∧
    (∀ opts, demoQuestion.options = some opts → ∀ o ∈ opts,
      ∃ rec2, rec2 ∈ demoVoc ∧ (o = rec2.meaning ∨ o = rec2.phonetic)) :=
  quizGET_topic_filter_selection.1 demoVoc (some "phonetic-to-meaning") "a"
    demoRand demoQuestion (by decide) (by decide) (by decide)

/-- C4: the free-text checker grades via the loose normalizer
(lower-casing, whitespace collapse, punctuation stripping, diacritic
removal) with containment and word-subset tolerance for Vietnamese
answers; in particular the two examples of the specification hold, the
conjuncts about `normalizeVietnamese` exhibit the normalizer itself, and
the last conjunct exercises the word-subset tolerance. -/
theorem isAnswerCorrect_loose_matching :
    isAnswerCorrect "con mèo" "mèo" true = true ∧
    isAnswerCorrect "dog" "cat" = false ∧
    normalizeVietnamese "con mèo" = "con meo" ∧
    normalizeVietnamese "Con  MEO." = "con meo" ∧
    jsIncludes (normalizeVietnamese "con mèo") (normalizeVietnamese "mèo") = true ∧
    isAnswerCorrect "meo nho con" "con mèo nhỏ" true = true := by
  decide

/-- C3 (amended): with at least 4 records and pairwise-distinct meanings,
`mode=phonetic-to-meaning` yields a 200 answer whose options list has
exactly 4 entries, contains the correct answer, and whose correct answer
is the meaning of the randomly selected record. -/
theorem quizGET_p2m_four_options (vocabulary : List Vocabulary) (r : QuizRand)
    (h4 : 4 ≤ vocabulary.length)
    (hnd : (vocabulary.map (·.meaning)).Nodup) :
    ∃ opts,
      quizHandlerGET vocabulary (some "phonetic-to-meaning") none r =
        (200, some
          { id := (vocabulary.getD (r.pick % vocabulary.length) vocDefault).id,
            question := (vocabulary.getD (r.pick % vocabulary.length) vocDefault).phonetic,
            correctAnswer := (vocabulary.getD (r.pick % vocabulary.length) vocDefault).meaning,
            options := some opts,
            type := "phonetic-to-meaning",
            word := (vocabulary.getD (r.pick % vocabulary.length) vocDefault).word,
            inputType := "multiple-choice" }) ∧
      opts.length = 4 ∧
      (vocabulary.getD (r.pick % vocabulary.length) vocDefault).meaning ∈ opts := by
  have h0 : ¬ vocabulary.length = 0 := by omega
  have h4' : ¬ vocabulary.length < 4 := by omega
  have hfn : topicFiltered vocabulary none = vocabulary := rfl
  have hlen : 0 < vocabulary.length := by omega
  have hidx : r.pick % vocabulary.length < vocabulary.length := Nat.mod_lt _ hlen
  have hmem : vocabulary.getD (r.pick % vocabulary.length) vocDefault ∈ vocabulary :=
    getD_mem hidx
  have hcm : (vocabulary.getD (r.pick % vocabulary.length) vocDefault).meaning ∈
      vocabulary.map (·.meaning) :=
    List.mem_map.mpr ⟨_, hmem, rfl⟩
  have hpool : ((vocabulary.map (·.meaning)).filter
      (fun m => m != (vocabulary.getD (r.pick % vocabulary.length) vocDefault).meaning)).length
      = vocabulary.length - 1 := by
    rw [filter_ne_length_of_nodup hnd hcm, List.length_map]
  have hpool3 : 3 ≤ ((vocabulary.map (·.meaning)).filter
      (fun m => m != (vocabulary.getD (r.pick % vocabulary.length) vocDefault).meaning)).length := by
    omega
  refine ⟨shuffleArray r.shufOpts
      ((vocabulary.getD (r.pick % vocabulary.length) vocDefault).meaning ::
        (shuffleArray r.shufPool ((vocabulary.map (·.meaning)).filter
          (fun m => m !=
            (vocabulary.getD (r.pick % vocabulary.length) vocDefault).meaning))).take 3),
    ?_, ?_, ?_⟩
  · simp only [quizHandlerGET, hfn, Option.getD_some]
    rw [if_neg h0, if_neg h0, if_neg h4']
    have hvm : validModes.contains "phonetic-to-meaning" = true := by decide
    rw [hvm]
    simp only [if_true]
    simp only [generateQuestion, hfn]
    rw [if_neg h0, if_neg h4']
    rfl
  · rw [length_shuffleArray, List.length_cons, List.length_take,
      length_shuffleArray, hpool]
    omega
  · rw [mem_shuffleArray]
    exact List.mem_cons_self _ _

/-- C8 (amended): the vocabulary search endpoint returns exactly the
records in which the term occurs case-insensitively as a substring of the
word or the meaning field (not the phonetic or topic fields); without a
search term, or with an empty one, the full collection is returned. -/
theorem vocabularyGET_search (vocabulary : List VocabEntry) (s : String)
    (hs : s ≠ "") :
    (vocabularyGET vocabulary (some s)).1 = 200 ∧
    (∀ v, v ∈ (vocabularyGET vocabulary (some s)).2 ↔
      (v ∈ vocabulary ∧
        (jsIncludes (jsLower v.word) (jsLower s) = true ∨
         jsIncludes (jsLower v.meaning) (jsLower s) = true))) ∧
    vocabularyGET vocabulary none = (200, vocabulary) ∧
    vocabularyGET vocabulary (some "") = (200, vocabulary) := by
  refine ⟨?_, ?_, rfl, by simp [vocabularyGET]⟩
  · simp [vocabularyGET, hs]
  · intro v
    simp [vocabularyGET, hs, List.mem_filter]

/-- Counterexample to C8 as stated: a record matched only through its
topic field satisfies the claimed search predicate but is not returned by
the endpoint, which searches the word and meaning fields only. -/
theorem vocabularyGET_search_ignores_topic :
    searchSpecMatches "animals" ⟨1, "neko", "cat", some "neko", some "animals"⟩ = true ∧
    (vocabularyGET [⟨1, "neko", "cat", some "neko", some "animals"⟩]
      (some "animals")).2 = [] := by
  decide

/-- Witness for C8 at a concrete store and search term. -/
theorem vocabularyGET_search_witness :
    (vocabularyGET [⟨1, "neko", "cat", none, none⟩] (some "NEK")).1 = 200 ∧
    (∀ v, v ∈ (vocabularyGET [⟨1, "neko", "cat", none, none⟩] (some "NEK")).2 ↔
      (v ∈ [(⟨1, "neko", "cat", none, none⟩ : VocabEntry)] ∧
        (jsIncludes (jsLower v.word) (jsLower "NEK") = true ∨
         jsIncludes (jsLower v.meaning) (jsLower "NEK") = true))) ∧
    vocabularyGET [⟨1, "neko", "cat", none, none⟩] none =
      (200, [⟨1, "neko", "cat", none, none⟩]) ∧
    vocabularyGET [⟨1, "neko", "cat", none, none⟩] (some "") =
      (200, [⟨1, "neko", "cat", none, none⟩]) :=
  vocabularyGET_search [⟨1, "neko", "cat", none, none⟩] "NEK" (by decide)

/-- C9: a missing store file, or contents on which the parse fails, makes
`readVocabulary` yield the empty collection in both API modules, and the
endpoints then behave as on an empty store instead of failing: the list
endpoint answers 200 with the empty array, the quiz endpoint its
empty-store 400. -/
theorem readVocabulary_corrupt_as_empty (file : Option String)
    (parseC : String → Option (List VocabEntry))
    (parseQ : String → Option (List Vocabulary)) (r : QuizRand)
    (h : file = none ∨ ∃ s, file = some s ∧ parseC s = none ∧ parseQ s = none) :
    readVocabulary file parseC = [] ∧ readVocabulary file parseQ = [] ∧
    vocabularyGET (readVocabulary file parseC) none = (200, []) ∧
    (quizHandlerGET (readVocabulary file parseQ) none none r).1 = 400 := by
  have hC : readVocabulary file parseC = [] := by
    rcases h with rfl | ⟨s, rfl, hc, _⟩
    · rfl
    · simp [readVocabulary, hc]
  have hQ : readVocabulary file parseQ = [] := by
    rcases h with rfl | ⟨s, rfl, _, hq⟩
    · rfl
    · simp [readVocabulary, hq]
  refine ⟨hC, hQ, ?_, ?_⟩
  · rw [hC]; rfl
  · rw [hQ]; rfl

/-- Witness for C9: a concrete unparsable file content. -/
theorem readVocabulary_corrupt_as_empty_witness :
    readVocabulary (some "not json") (fun _ => (none : Option (List VocabEntry))) = [] ∧
    readVocabulary (some "not json") (fun _ => (none : Option (List Vocabulary))) = [] ∧
    vocabularyGET (readVocabulary (some "not json")
      (fun _ => (none : Option (List VocabEntry)))) none = (200, []) ∧
    (quizHandlerGET (readVocabulary (some "not json")
      (fun _ => (none : Option (List Vocabulary)))) none none demoRand).1 = 400 :=
  readVocabulary_corrupt_as_empty (some "not json") (fun _ => none) (fun _ => none)
    demoRand (Or.inr ⟨"not json", rfl, rfl, rfl⟩)

theorem getNextId_gt (vocabulary : List VocabEntry) :
    ∀ v ∈ vocabulary, v.id < getNextId vocabulary := by
  intro v hv
  unfold getNextId
  rcases hmap : vocabulary.map (·.id) with _ | ⟨x, xs⟩
  · rw [List.map_eq_nil_iff] at hmap
    subst hmap
    cases hv
  · rw [hmap]
    show v.id < xs.foldl max x + 1
    have hvid : v.id ∈ x :: xs := by
      rw [← hmap]
      exact List.mem_map.mpr ⟨v, hv, rfl⟩
    rcases List.mem_cons.mp hvid with h | h
    · have := le_foldl_max x xs
      omega
    · have := mem_le_foldl_max x xs v.id h
      omega

theorem getNextId_succ_mem (vocabulary : List VocabEntry)
    (hne : vocabulary ≠ []) :
    ∃ v ∈ vocabulary, getNextId vocabulary = v.id + 1 := by
  unfold getNextId
  rcases hmap : vocabulary.map (·.id) with _ | ⟨x, xs⟩
  · exact absurd (List.map_eq_nil_iff.mp hmap) hne
  · rw [hmap]
    show ∃ v ∈ vocabulary, xs.foldl max x + 1 = v.id + 1
    rcases foldl_max_cases x xs with h | h
    · have hx : x ∈ vocabulary.map (·.id) := by
        rw [hmap]; exact List.mem_cons_self x xs
      rcases List.mem_map.mp hx with ⟨v, hv, hvx⟩
      exact ⟨v, hv, by rw [h, hvx]⟩
    · have hx : xs.foldl max x ∈ vocabulary.map (·.id) := by
        rw [hmap]; exact List.mem_cons_of_mem x h
      rcases List.mem_map.mp hx with ⟨v, hv, hvx⟩
      exact ⟨v, hv, by rw [hvx]⟩

/-- C6 (amended): a POST with non-empty word and meaning whose word is
case-insensitively fresh answers 201 with the created record; the record
carries the trimmed word and meaning and the id max(existing ids)+1 (1 on
an empty store) and is appended; the supplied phonetic and topic are
ignored rather than stored. -/
theorem vocabularyPOST_creates (vocabulary : List VocabEntry)
    (word meaning phonetic topic : String)
    (hw : word ≠ "") (hm : meaning ≠ "")
    (hfresh : ∀ v ∈ vocabulary, jsLower v.word ≠ jsLower word) :
    vocabularyPOST vocabulary word meaning phonetic topic =
      (201,
       vocabulary ++
         [{ id := getNextId vocabulary, word := jsTrim word,
            meaning := jsTrim meaning, phonetic := none, topic := none }],
       some { id := getNextId vocabulary, word := jsTrim word,
              meaning := jsTrim meaning, phonetic := none, topic := none }) ∧
    (vocabulary = [] → getNextId vocabulary = 1) ∧
    (∀ v ∈ vocabulary, v.id < getNextId vocabulary) ∧
    (vocabulary ≠ [] → ∃ v ∈ vocabulary, getNextId vocabulary = v.id + 1) := by
  refine ⟨?_, ?_, getNextId_gt vocabulary, getNextId_succ_mem vocabulary⟩
  · unfold vocabularyPOST
    have hguard : (decide (word = "") || decide (meaning = "")) = false := by
      simp [hw, hm]
    rw [hguard]
    have hfind : vocabulary.find? (fun v => jsLower v.word == jsLower word) = none := by
      rw [List.find?_eq_none]
      intro v hv
      simp [hfresh v hv]
    rw [hfind]
    rfl
  · intro h
    subst h
    rfl

/-- Counterexample to C6 as stated: the record created from a request that
supplies phonetic "kaet" and topic "animals" carries neither; the handler
ignores both fields. -/
theorem vocabularyPOST_drops_phonetic_topic :
    vocabularyPOST [] "cat" "x" "kaet" "animals" =
      (201, [⟨1, "cat", "x", none, none⟩], some ⟨1, "cat", "x", none, none⟩) ∧
    (⟨1, "cat", "x", none, none⟩ : VocabEntry).phonetic ≠ some "kaet" ∧
    (⟨1, "cat", "x", none, none⟩ : VocabEntry).topic ≠ some "animals" := by
  decide

/-- Witness for C6 on a concrete one-record store. -/
theorem vocabularyPOST_creates_witness :
    vocabularyPOST [⟨5, "cat", "x", none, none⟩] "Dog " "big dog" "dg" "anim" =
      (201,
       [⟨5, "cat", "x", none, none⟩] ++
         [{ id := getNextId [⟨5, "cat", "x", none, none⟩], word := jsTrim "Dog ",
            meaning := jsTrim "big dog", phonetic := none, topic := none }],
       some { id := getNextId [⟨5, "cat", "x", none, none⟩], word := jsTrim "Dog ",
              meaning := jsTrim "big dog", phonetic := none, topic := none }) ∧
    ([(⟨5, "cat", "x", none, none⟩ : VocabEntry)] = [] →
      getNextId [⟨5, "cat", "x", none, none⟩] = 1) ∧
    (∀ v ∈ [(⟨5, "cat", "x", none, none⟩ : VocabEntry)],
      v.id < getNextId [⟨5, "cat", "x", none, none⟩]) ∧
    ([(⟨5, "cat", "x", none, none⟩ : VocabEntry)] ≠ [] →
      ∃ v ∈ [(⟨5, "cat", "x", none, none⟩ : VocabEntry)],
        getNextId [⟨5, "cat", "x", none, none⟩] = v.id + 1) :=
  vocabularyPOST_creates [⟨5, "cat", "x", none, none⟩] "Dog " "big dog" "dg" "anim"
    (by decide) (by decide) (by decide)

theorem getD_map_entry (f : VocabEntry → VocabEntry) (l : List VocabEntry)
    (i : Nat) (hi : i < l.length) :
    (l.map f).getD i entryDefault = f (l.getD i entryDefault) := by
  rw [List.getD_eq_getElem _ _ (by simpa using hi), List.getElem_map,
    List.getD_eq_getElem _ _ hi]

/-- C7 (amended): for a rename request whose names are non-empty and carry
no surrounding whitespace (the handler trims both names before matching
and writing), with the old topic in use and the new topic unused, the
endpoint answers 200, keeps the store length, rewrites the topic of
exactly the records whose topic was oldName to newName, and leaves every
other field and every other record unchanged. -/
theorem topicsPUT_renames (vocabulary : List VocabEntry)
    (oldName newName : String)
    (ho : oldName ≠ "") (hn : newName ≠ "")
    (hot : jsTrim oldName = oldName) (hnt : jsTrim newName = newName)
    (hused : (vocabulary.filter (fun v => v.topic == some oldName)).length ≠ 0)
    (hfree : ∀ v ∈ vocabulary, v.topic ≠ some newName) :
    (topicsPUT vocabulary oldName newName).1 = 200 ∧
    (topicsPUT vocabulary oldName newName).2.length = vocabulary.length ∧
    (∀ i : Nat, i < vocabulary.length →
      ((vocabulary.getD i entryDefault).topic = some oldName →
        (topicsPUT vocabulary oldName newName).2.getD i entryDefault =
          { vocabulary.getD i entryDefault with topic := some newName }) ∧
      ((vocabulary.getD i entryDefault).topic ≠ some oldName →
        (topicsPUT vocabulary oldName newName).2.getD i entryDefault =
          vocabulary.getD i entryDefault)) := by
  have hne : oldName ≠ newName := by
    intro he
    apply hused
    rw [List.length_eq_zero, List.filter_eq_nil_iff]
    intro v hv
    have := hfree v hv
    rw [← he] at this
    simp [this]
  have hstore : topicsPUT vocabulary oldName newName =
      (200, vocabulary.map (fun v =>
        if v.topic == some oldName then { v with topic := some newName } else v)) := by
    unfold topicsPUT
    have hguard : (decide (oldName = "") || decide (newName = "")) = false := by
      simp [ho, hn]
    rw [hguard]
    simp only [Bool.false_eq_true, if_false]
    rw [hot, hnt, if_neg hne, if_neg hused]
    have hfind : vocabulary.find? (fun v => v.topic == some newName) = none := by
      rw [List.find?_eq_none]
      intro v hv
      simp [hfree v hv]
    rw [hfind]
    rfl
  rw [hstore]
  refine ⟨rfl, by simp, ?_⟩
  intro i hi
  constructor
  · intro hTop
    rw [getD_map_entry _ _ i hi, if_pos (by simp only [beq_iff_eq]; exact hTop)]
  · intro hTop
    rw [getD_map_entry _ _ i hi, if_neg (by simp only [beq_iff_eq]; exact hTop)]

/-- Counterexample to C7 as stated: renaming topic "A" to "B " (trailing
space) satisfies the hypotheses of the claim, yet the handler stores the
trimmed name "B" on the renamed record, not the requested newName. -/
theorem topicsPUT_trims_newName :
    (∃ v ∈ [(⟨1, "cat", "meo", some "k", some "A"⟩ : VocabEntry)],
      v.topic = some "A") ∧
    (∀ v ∈ [(⟨1, "cat", "meo", some "k", some "A"⟩ : VocabEntry)],
      v.topic ≠ some "B ") ∧
    (topicsPUT [⟨1, "cat", "meo", some "k", some "A"⟩] "A" "B ").2.map (·.topic)
      = [some "B"] ∧
    (some "B" : Option String) ≠ some "B " := by
  decide

/-- Witness for C7: a concrete two-record store in which exactly one
record carries the renamed topic. -/
theorem topicsPUT_renames_witness :
    (topicsPUT [⟨1, "cat", "meo", some "k", some "A"⟩,
      ⟨2, "dog", "cho", some "d", some "C"⟩] "A" "B").1 = 200 ∧
    (topicsPUT [⟨1, "cat", "meo", some "k", some "A"⟩,
      ⟨2, "dog", "cho", some "d", some "C"⟩] "A" "B").2.length =
      [(⟨1, "cat", "meo", some "k", some "A"⟩ : VocabEntry),
       ⟨2, "dog", "cho", some "d", some "C"⟩].length ∧
    (∀ i : Nat, i < [(⟨1, "cat", "meo", some "k", some "A"⟩ : VocabEntry),
        ⟨2, "dog", "cho", some "d", some "C"⟩].length →
      (([(⟨1, "cat", "meo", some "k", some "A"⟩ : VocabEntry),
          ⟨2, "dog", "cho", some "d", some "C"⟩].getD i entryDefault).topic = some "A" →
        (topicsPUT [⟨1, "cat", "meo", some "k", some "A"⟩,
          ⟨2, "dog", "cho", some "d", some "C"⟩] "A" "B").2.getD i entryDefault =
          { [(⟨1, "cat", "meo", some "k", some "A"⟩ : VocabEntry),
             ⟨2, "dog", "cho", some "d", some "C"⟩].getD i entryDefault with
            topic := some "B" }) ∧
      (([(⟨1, "cat", "meo", some "k", some "A"⟩ : VocabEntry),
          ⟨2, "dog", "cho", some "d", some "C"⟩].getD i entryDefault).topic ≠ some "A" →
        (topicsPUT [⟨1, "cat", "meo", some "k", some "A"⟩,
          ⟨2, "dog", "cho", some "d", some "C"⟩] "A" "B").2.getD i entryDefault =
          [(⟨1, "cat", "meo", some "k", some "A"⟩ : VocabEntry),
           ⟨2, "dog", "cho", some "d", some "C"⟩].getD i entryDefault)) :=
  topicsPUT_renames [⟨1, "cat", "meo", some "k", some "A"⟩,
    ⟨2, "dog", "cho", some "d", some "C"⟩] "A" "B" (by decide) (by decide)
    (by decide) (by decide) (by decide) (by decide)

theorem findIdx?_isSome_of_mem {α : Type} (p : α → Bool) (l : List α) (a : α)
    (ha : a ∈ l) (hp : p a = true) : (l.findIdx? p).isSome = true := by
  induction l with
  | nil => cases ha
  | cons x xs ih =>
    rw [List.findIdx?_cons]
    by_cases hx : p x
    · simp [hx]
    · rcases List.mem_cons.mp ha with rfl | h
      · exact absurd hp hx
      · simp [hx, ih h]

theorem wordUnique_POST (S : List VocabEntry) (w m p t : String)
    (hU : wordUnique S) (hw : jsTrim w = w) :
    wordUnique (vocabularyPOST S w m p t).2.1 := by
  unfold vocabularyPOST
  by_cases hg : (decide (w = "") || decide (m = "")) = true
  · rw [if_pos hg]; exact hU
  rw [if_neg hg]
  rcases hfind : S.find? (fun v => jsLower v.word == jsLower w) with _ | v
  · rw [hfind]
    dsimp only
    unfold wordUnique
    rw [List.map_append, List.map_cons, List.map_nil]
    dsimp only
    rw [hw, List.nodup_append]
    refine ⟨hU, List.nodup_singleton _, ?_⟩
    intro a ha hb
    rw [List.mem_singleton] at hb
    subst hb
    rcases List.mem_map.mp ha with ⟨v, hv, hva⟩
    have := List.find?_eq_none.mp hfind v hv
    rw [hva] at this
    simp at this
  · rw [hfind]
    exact hU

theorem wordUnique_PUT (S : List VocabEntry) (i : Int) (w m : String)
    (hU : wordUnique S) (hid : idsNodup S) (hw : jsTrim w = w) :
    wordUnique (vocabularyPUT S i w m).2.1 := by
  unfold vocabularyPUT
  by_cases hg : (decide (i = 0) || decide (w = "") || decide (m = "")) = true
  · rw [if_pos hg]; exact hU
  rw [if_neg hg]
  rcases hidx : S.findIdx? (fun v => v.id == i) with _ | idx
  · rw [hidx]; exact hU
  rw [hidx]
  rcases hfind : S.find? (fun v =>
      (jsLower v.word == jsLower w) && (v.id != i)) with _ | v
  · rw [hfind]
    dsimp only
    unfold wordUnique
    rw [map_set_comm]
    dsimp only
    rw [hw]
    obtain ⟨hlt, hp⟩ := findIdx?_some_spec (fun v => v.id == i) S idx hidx
    have hidi : (S.get ⟨idx, hlt⟩).id = i := by simpa using hp
    apply nodup_set _ _ _ hU
    intro j hj hji
    have hjS : j < S.length := by simpa using hj
    rw [List.get_eq_getElem, List.getElem_map]
    intro hc
    have hnone := List.find?_eq_none.mp hfind (S.get ⟨j, hjS⟩)
      (List.get_mem S j hjS)
    simp only [Bool.and_eq_true, beq_iff_eq, bne_iff_ne, not_and, not_not,
      ne_eq, Decidable.not_not] at hnone
    have hji_id : (S.get ⟨j, hjS⟩).id = i := hnone (by simpa using hc)
    have hmapj : (S.map (·.id)).get ⟨j, by simpa using hjS⟩ =
        (S.map (·.id)).get ⟨idx, by simpa using hlt⟩ := by
      rw [List.get_eq_getElem, List.get_eq_getElem, List.getElem_map,
        List.getElem_map]
      rw [show S[j] = S.get ⟨j, hjS⟩ from rfl,
        show S[idx] = S.get ⟨idx, hlt⟩ from rfl, hji_id, hidi]
    have := (List.Nodup.get_inj_iff hid).mp hmapj
    exact hji (by simpa using congrArg Fin.val this)
  · rw [hfind]
    exact hU

theorem wordUnique_DELETE (S : List VocabEntry) (i : Int)
    (hU : wordUnique S) : wordUnique (vocabularyDELETE S i).2 := by
  simp only [vocabularyDELETE]
  by_cases h : (S.filter (fun v => v.id != i)).length = S.length
  · rw [if_pos h]; exact hU
  · rw [if_neg h]
    exact List.Nodup.sublist ((List.filter_sublist S).map _) hU

theorem wordUnique_topicsPUT (S : List VocabEntry) (o n : String)
    (hU : wordUnique S) : wordUnique (topicsPUT S o n).2 := by
  simp only [topicsPUT]
  by_cases h1 : (decide (o = "") || decide (n = "")) = true
  · rw [if_pos h1]; exact hU
  rw [if_neg h1]
  by_cases h2 : jsTrim o = jsTrim n
  · rw [if_pos h2]; exact hU
  rw [if_neg h2]
  by_cases h3 : (S.filter (fun v => v.topic == some (jsTrim o))).length = 0
  · rw [if_pos h3]; exact hU
  rw [if_neg h3]
  by_cases h4 : (S.find? (fun v => v.topic == some (jsTrim n))).isSome = true
  · rw [if_pos h4]; exact hU
  rw [if_neg h4]
  unfold wordUnique
  rw [List.map_map]
  have hcomp : ((fun v => jsLower v.word) ∘ (fun v =>
      if v.topic == some (jsTrim o) then { v with topic := some (jsTrim n) }
      else v)) = fun v : VocabEntry => jsLower v.word := by
    funext v
    by_cases hv : (v.topic == some (jsTrim o)) = true
    · simp [Function.comp, hv]
    · simp [Function.comp, hv]
  rw [hcomp]
  exact hU

theorem wordUnique_topicsDELETE (S : List VocabEntry) (n : String)
    (hU : wordUnique S) : wordUnique (topicsDELETE S n).2 := by
  simp only [topicsDELETE]
  by_cases h1 : (decide (n = "") || decide (jsTrim n = "")) = true
  · rw [if_pos h1]; exact hU
  rw [if_neg h1]
  by_cases h2 : (S.filter (fun v => v.topic == some (jsTrim n))).length = 0
  · rw [if_pos h2]; exact hU
  · rw [if_neg h2]
    exact List.Nodup.sublist ((List.filter_sublist S).map _) hU

theorem vocabularyPOST_dup_rejected (S : List VocabEntry) (w m p t : String)
    (hdup : ∃ v ∈ S, jsLower v.word = jsLower w) :
    (vocabularyPOST S w m p t).1 = 400 ∧ (vocabularyPOST S w m p t).2.1 = S := by
  unfold vocabularyPOST
  by_cases hg : (decide (w = "") || decide (m = "")) = true
  · rw [if_pos hg]; exact ⟨rfl, rfl⟩
  rw [if_neg hg]
  rcases hfind : S.find? (fun v => jsLower v.word == jsLower w) with _ | v
  · exfalso
    rcases hdup with ⟨v, hv, he⟩
    have := List.find?_eq_none.mp hfind v hv
    simp [he] at this
  · rw [hfind]
    exact ⟨rfl, rfl⟩

theorem vocabularyPUT_dup_rejected (S : List VocabEntry) (i : Int) (w m : String)
    (hex : ∃ v ∈ S, v.id = i)
    (hdup : ∃ v ∈ S, jsLower v.word = jsLower w ∧ v.id ≠ i) :
    (vocabularyPUT S i w m).1 = 400 ∧ (vocabularyPUT S i w m).2.1 = S := by
  unfold vocabularyPUT
  by_cases hg : (decide (i = 0) || decide (w = "") || decide (m = "")) = true
  · rw [if_pos hg]; exact ⟨rfl, rfl⟩
  rw [if_neg hg]
  rcases hidx : S.findIdx? (fun v => v.id == i) with _ | idx
  · exfalso
    rcases hex with ⟨v, hv, he⟩
    have hs := findIdx?_isSome_of_mem (fun v => v.id == i) S v hv (by simp [he])
    rw [hidx] at hs
    simp at hs
  · rw [hidx]
    rcases hfind : S.find? (fun v =>
        (jsLower v.word == jsLower w) && (v.id != i)) with _ | v
    · exfalso
      rcases hdup with ⟨v, hv, h1, h2⟩
      have := List.find?_eq_none.mp hfind v hv
      simp [h1, h2] at this
    · rw [hfind]
      exact ⟨rfl, rfl⟩

/-- C5 (amended): on a store with case-insensitively unique words and
pairwise-distinct ids, every operation preserves word uniqueness provided
POST and PUT submit words without surrounding whitespace (the handlers
trim the stored word but compare duplicates against the raw input); a
POST whose word case-insensitively matches an existing record, or a PUT
addressing an existing id whose word matches a different record, is
rejected with 400 and writes nothing. -/
theorem wordUnique_invariant (S : List VocabEntry)
    (hU : wordUnique S) (hid : idsNodup S) :
    (∀ w m p t, jsTrim w = w → wordUnique (vocabularyPOST S w m p t).2.1) ∧
    (∀ i w m, jsTrim w = w → wordUnique (vocabularyPUT S i w m).2.1) ∧
    (∀ i, wordUnique (vocabularyDELETE S i).2) ∧
    (∀ o n, wordUnique (topicsPUT S o n).2) ∧
    (∀ n, wordUnique (topicsDELETE S n).2) ∧
    (∀ w m p t, (∃ v ∈ S, jsLower v.word = jsLower w) →
      (vocabularyPOST S w m p t).1 = 400 ∧ (vocabularyPOST S w m p t).2.1 = S) ∧
    (∀ i w m, (∃ v ∈ S, v.id = i) →
      (∃ v ∈ S, jsLower v.word = jsLower w ∧ v.id ≠ i) →
      (vocabularyPUT S i w m).1 = 400 ∧ (vocabularyPUT S i w m).2.1 = S) :=
  ⟨fun w m p t hw => wordUnique_POST S w m p t hU hw,
   fun i w m hw => wordUnique_PUT S i w m hU hid hw,
   fun i => wordUnique_DELETE S i hU,
   fun o n => wordUnique_topicsPUT S o n hU,
   fun n => wordUnique_topicsDELETE S n hU,
   fun w m p t h => vocabularyPOST_dup_rejected S w m p t h,
   fun i w m hex hdup => vocabularyPUT_dup_rejected S i w m hex hdup⟩

/-- Counterexample to C5 as stated: a POST whose word carries a trailing
space passes the duplicate check (which compares against the raw input)
but stores the trimmed word, so the 201 write breaks case-insensitive
word uniqueness. -/
theorem wordUnique_broken_by_trailing_space :
    wordUnique [⟨1, "cat", "x", none, none⟩] ∧
    (vocabularyPOST [⟨1, "cat", "x", none, none⟩] "cat " "y" "ph" "tp").1 = 201 ∧
    ¬ wordUnique
      (vocabularyPOST [⟨1, "cat", "x", none, none⟩] "cat " "y" "ph" "tp").2.1 := by
  refine ⟨by decide, by decide, by decide⟩

/-- Witness for C5: the invariant parts applied on a concrete one-record
store, once with a fresh word and once with a duplicate. -/
theorem wordUnique_invariant_witness :
    wordUnique (vocabularyPOST [⟨1, "cat", "x", none, none⟩] "Dog" "y" "p" "t").2.1 ∧
    (vocabularyPOST [⟨1, "cat", "x", none, none⟩] "CAT" "y" "p" "t").1 = 400 :=
  ⟨(wordUnique_invariant [⟨1, "cat", "x", none, none⟩] (by decide) (by decide)).1
      "Dog" "y" "p" "t" (by decide),
   ((wordUnique_invariant [⟨1, "cat", "x", none, none⟩] (by decide)
        (by decide)).2.2.2.2.2.1 "CAT" "y" "p" "t"
      ⟨⟨1, "cat", "x", none, none⟩, by decide, by decide⟩).1⟩

/-- Counterexample to C3 as stated: on a four-record store whose records
share one meaning, the endpoint still answers 200 for
`mode=phonetic-to-meaning`, but the options array holds a single entry
(the correct answer), not 4: every candidate distractor is filtered out
as equal to the correct answer. -/
theorem quizGET_p2m_not_always_four_options :
    (quizHandlerGET demoVocSameMeaning (some "phonetic-to-meaning") none demoRand).1
      = 200 ∧
    ((quizHandlerGET demoVocSameMeaning (some "phonetic-to-meaning") none
        demoRand).2.bind (fun q => q.options)).getD [] = ["m"] ∧
    ¬ (((quizHandlerGET demoVocSameMeaning (some "phonetic-to-meaning") none
        demoRand).2.bind (fun q => q.options)).getD []).length = 4 := by
  decide

/-- Witness for C3 on the concrete store with distinct meanings. -/
theorem quizGET_p2m_four_options_witness :
    ∃ opts,
      quizHandlerGET demoVoc (some "phonetic-to-meaning") none demoRand =
        (200, some
          { id := (demoVoc.getD (demoRand.pick % demoVoc.length) vocDefault).id,
            question :=
              (demoVoc.getD (demoRand.pick % demoVoc.length) vocDefault).phonetic,
            correctAnswer :=
              (demoVoc.getD (demoRand.pick % demoVoc.length) vocDefault).meaning,
            options := some opts,
            type := "phonetic-to-meaning",
            word := (demoVoc.getD (demoRand.pick % demoVoc.length) vocDefault).word,
            inputType := "multiple-choice" }) ∧
      opts.length = 4 ∧
      (demoVoc.getD (demoRand.pick % demoVoc.length) vocDefault).meaning ∈ opts :=
  quizGET_p2m_four_options demoVoc demoRand (by decide) (by decide)

/-- Witness for C10: the retired mode name "word-to-meaning" is not one of
the six recognised modes and is served as a mixed multiple-choice
question. -/
theorem quizGET_unknown_mode_is_mixed_witness :
    ∃ q, quizHandlerGET demoVoc (some "word-to-meaning") none demoRand =
        (200, some q) ∧
      q.inputType = "multiple-choice" ∧
      (q.type = "phonetic-to-meaning" ∨ q.type = "meaning-to-phonetic") ∧
      q.options.isSome = true :=
  quizGET_unknown_mode_is_mixed demoVoc "word-to-meaning" none demoRand
    (by decide) (by decide) (by decide)
